import Mathlib
/-!
Verification of the prompt scheduling and execution engine of the prisme-app
repository, by a shallow embedding into Lean.

The repository contains two generations of the scheduling context:

* src/app/context/PromptContext.tsx (the Phase 2 provider, whose due check
  checkAndRunScheduledPrompts sits at lines 778-836) -- embedded below in
  namespace Phase2;
* the provider with notification support (a source file whose name is not
  recorded, src/unnamed/part_000), containing checkMissedScheduledPrompts
  (lines 321-385), executeScheduledPrompt (lines 403-474) and a
  checkAndRunScheduledPrompts that merely delegates to
  checkMissedScheduledPrompts -- embedded below in namespace Notif.

Shared data model, JavaScript Date arithmetic, the Perplexity client
(src/app/utils/fetchAiResponse.ts) and the shared operations (clearPrompts,
the category migration on load) live at the top of the namespace Prisme.

Timestamps (ISO strings in the source) are modelled as milliseconds since
the epoch (Nat).  The device timezone is a parameter tz, in minutes east of
UTC: local time of instant t is t + tz * 60000.  JavaScript Date methods are
embedded as follows:

* getHours / getMinutes  -> jsGetHours / jsGetMinutes (local time of day);
* toDateString() equality between two instants  -> equality of the local
  day numbers jsLocalDay (two instants render the same date string exactly
  when they fall on the same local calendar day);
* toISOString().split at the letter T, i.e. the UTC date prefix of an ISO
  string  -> the UTC day number jsUtcDay (an ISO timestamp starts with a
  given ISO date string exactly when both denote the same UTC day);
* setHours(h, m, 0, 0) applied to a Date holding the current instant
  -> jsSetHoursToday (same local day, time of day h:m:00.000).

The AI collaborator is an oracle ai : String -> Except String
PerplexityResult; an .error outcome models a rejected promise caught by the
try/catch of the caller.
-/

set_option linter.unusedVariables false

namespace Prisme

/-- Result record of fetchAiResponseWithSources, from the PerplexityResult
interface of src/app/utils/fetchAiResponse.ts. -/
structure PerplexityResult where
  response : String
  sources : List String
  sourcesFormatted : String
  sourcesDisplay : String
deriving DecidableEq, Repr

/-- The scheduled field of a Prompt (src/unnamed/part_000 lines 42-49).
lastRun is an optional timestamp, isRecurring an optional boolean (the code
reads it as isRecurring ?? true). -/
structure Schedule where
  hour : Nat
  minute : Nat
  frequency : String
  lastRun : Option Nat
  isRecurring : Option Bool
  notificationId : Option String
deriving DecidableEq, Repr

/-- A Prompt entity (src/unnamed/part_000 lines 35-50): category and
scheduled are optional fields. -/
structure Prompt where
  id : String
  question : String
  response : String
  source : String
  updatedAt : Nat
  category : Option String
  scheduled : Option Schedule
deriving DecidableEq, Repr

/-- Milliseconds of instant t expressed in local time, for a timezone tz
minutes east of UTC. -/
def localMs (tz : Int) (t : Nat) : Int := (t : Int) + tz * 60000

/-- Local calendar day number of instant t: embeds equality of
Date.toDateString() values. -/
def jsLocalDay (tz : Int) (t : Nat) : Int := (localMs tz t).ediv 86400000

/-- Date.getHours() of instant t in timezone tz. -/
def jsGetHours (tz : Int) (t : Nat) : Int := ((localMs tz t).ediv 3600000).emod 24

/-- Date.getMinutes() of instant t in timezone tz. -/
def jsGetMinutes (tz : Int) (t : Nat) : Int := ((localMs tz t).ediv 60000).emod 60

/-- UTC calendar day number of instant t: embeds the date prefix of
Date.toISOString(), so lastRun.startsWith(today) holds exactly when both
instants share this value. -/
def jsUtcDay (t : Nat) : Nat := t / 86400000

/-- Epoch milliseconds of the Date obtained from the current instant by
setHours(hour, minute, 0, 0): the local day of now, at local time
hour:minute:00.000.  Can precede the epoch, hence Int. -/
def jsSetHoursToday (tz : Int) (now : Nat) (h m : Nat) : Int :=
  jsLocalDay tz now * 86400000 + (h : Int) * 3600000 + (m : Int) * 60000 - tz * 60000

/-- Embeds String.prototype.startsWith: the second argument is a prefix of
the first.  Written over character lists so that proofs can evaluate it. -/
def jsStartsWith (s pre : String) : Bool := List.isPrefixOf pre.toList s.toList

/-- Embeds String.prototype.trim: strip leading and trailing whitespace.
Written over character lists so that proofs can evaluate it. -/
def jsTrim (s : String) : String :=
  String.mk (((s.toList.dropWhile Char.isWhitespace).reverse.dropWhile Char.isWhitespace).reverse)

/-- Events recorded by the embedded execution engine, in program order:
state writes (setPrompts calls) and the start of an AI query.  The claims
about ordering (optimistic stamping before the AI call) and about AI
invocation counts are phrased over these traces. -/
inductive Event where
  | setRunning (id : String) (lastRun : Nat)
  | aiStart (id : String) (question : String)
  | setCompleted (id : String) (lastRun : Nat)
  | setFailed (id : String) (lastRun : Nat)
deriving DecidableEq, Repr

/-- Recognizer for the aiStart constructor. -/
def Event.isAiStart : Event → Bool
  | .aiStart _ _ => true
  | _ => false

/-- The in-progress sentinel written by executeScheduledPrompt
(src/unnamed/part_000 line 417). -/
def inProgressResponse : String := "⏳ Exécution en cours..."

/-- The error message written by the catch branch of executeScheduledPrompt
(src/unnamed/part_000 line 462). -/
def schedErrorResponse : String := "❌ Erreur lors de l\x27exécution du prompt planifié"

/-- The error message pushed by the catch branch inside the Phase 2 due
check (src/app/context/PromptContext.tsx line 816). -/
def phase2ErrorResponse : String := "❌ Erreur lors de l\x27exécution"

/-- Placeholder for the JavaScript object spread of an undefined scheduled
field: spreading p.scheduled! when p.scheduled is undefined yields an object
whose hour, minute, frequency are absent.  Absent fields are modelled by
these defaults; every property proved below about this path only concerns
prompts whose scheduled field is present, where the placeholder is unused. -/
def spreadAbsentSchedule : Schedule :=
  { hour := 0, minute := 0, frequency := "", lastRun := none,
    isRecurring := none, notificationId := none }

/-- clearPrompts (src/unnamed/part_000 lines 585-598 and
src/app/context/PromptContext.tsx lines 728-744): keep exactly the prompts
whose scheduled field is present, and hand that same retained collection to
savePrompts at once (the second component models the immediate, awaited
write to the persistent store, bypassing the debounced effect). -/
def clearPrompts (prompts : List Prompt) : List Prompt × List Prompt :=
  (prompts.filter (fun p => p.scheduled.isSome),
   prompts.filter (fun p => p.scheduled.isSome))

/-- The JavaScript expression c || d for a possibly absent string c: the
default applies when c is absent or the empty string (the two falsy
cases). -/
def jsOrString (c : Option String) (d : String) : String :=
  match c with
  | none => d
  | some s => if s = "" then d else s

/-- Category migration applied to each loaded prompt
(src/app/context/PromptContext.tsx lines 467-470 and src/unnamed/part_000
lines 251-254): category := prompt.category || "other". -/
def migrateCategory (p : Prompt) : Prompt :=
  { p with category := some (jsOrString p.category "other") }

/-- The migration step of the load path, over the whole parsed array. -/
def migrateCategories (ps : List Prompt) : List Prompt :=
  ps.map migrateCategory

/-- Concrete loaded prompt whose category field is present but holds the
empty string. -/
def emptyCategoryPrompt : Prompt :=
  { id := "8", question := "q8", response := "r8", source := "s8", updatedAt := 0,
    category := some "", scheduled := none }

/-- Concrete loaded prompt with no category field. -/
def noCategoryPrompt : Prompt :=
  { id := "a", question := "qa", response := "", source := "", updatedAt := 0,
    category := none, scheduled := none }

/-- Concrete loaded prompt with category "tech". -/
def techCategoryPrompt : Prompt :=
  { id := "b", question := "qb", response := "", source := "", updatedAt := 0,
    category := some "tech", scheduled := none }

/-- Oracle standing for an AI collaborator whose calls all succeed. -/
def aiOkSample : String → Except String PerplexityResult :=
  fun _ => .ok { response := "réponse", sources := [], sourcesFormatted := "Perplexity",
                 sourcesDisplay := "Perplexity" }

/-- Oracle standing for an AI collaborator whose calls all fail. -/
def aiBadSample : String → Except String PerplexityResult :=
  fun _ => .error "network"

/-- Concrete non-recurring prompt whose single execution happened on an
earlier day (lastRun at the epoch, day 0). -/
def c1Prompt : Prompt :=
  { id := "1", question := "q1", response := "done", source := "Perplexity", updatedAt := 0,
    category := none,
    scheduled := some { hour := 0, minute := 0, frequency := "daily",
                        lastRun := some 0, isRecurring := some false,
                        notificationId := none } }

/-- Concrete recurring prompt, scheduled 00:00, never run. -/
def c2Prompt : Prompt :=
  { id := "2", question := "q2", response := "", source := "Planifié", updatedAt := 0,
    category := none,
    scheduled := some { hour := 0, minute := 0, frequency := "daily",
                        lastRun := none, isRecurring := some true,
                        notificationId := none } }

/-- Concrete recurring prompt scheduled at 14:00, never run. -/
def c4Prompt : Prompt :=
  { id := "4", question := "q4", response := "", source := "Planifié", updatedAt := 0,
    category := none,
    scheduled := some { hour := 14, minute := 0, frequency := "daily",
                        lastRun := none, isRecurring := some true,
                        notificationId := none } }

/-- Concrete recurring prompt last run late in the local evening of one day
(21:00 UTC, 23:00 local in timezone +120), evaluated shortly after local
midnight the next day (22:30 UTC, 00:30 local). -/
def c5Prompt : Prompt :=
  { id := "5", question := "q5", response := "r5", source := "Perplexity", updatedAt := 0,
    category := none,
    scheduled := some { hour := 0, minute := 0, frequency := "daily",
                        lastRun := some 75600000, isRecurring := some true,
                        notificationId := none } }

/-- The schedule components a due check must never change: hour, minute,
frequency and the recurrence flag. -/
def schedCore (s : Schedule) : Nat × Nat × String × Option Bool :=
  (s.hour, s.minute, s.frequency, s.isRecurring)

end Prisme

namespace Prisme.Notif

/-- First setPrompts of executeScheduledPrompt (src/unnamed/part_000 lines
412-425), applied pointwise: every prompt whose id matches gets the
in-progress sentinel as response and lastRun stamped with the start time of
the attempt, before the AI call is made. -/
def runUpd (t0 : Nat) (pid : String) (q : Prompt) : Prompt :=
  if q.id = pid then
    { q with response := inProgressResponse,
             scheduled := some { q.scheduled.getD spreadAbsentSchedule with lastRun := some t0 } }
  else q

/-- Success setPrompts of executeScheduledPrompt (src/unnamed/part_000 lines
431-446), applied pointwise. -/
def doneUpd (t1 : Nat) (result : PerplexityResult) (pid : String) (q : Prompt) : Prompt :=
  if q.id = pid then
    { q with response := result.response, source := result.sourcesFormatted, updatedAt := t1,
             scheduled := some { q.scheduled.getD spreadAbsentSchedule with lastRun := some t1 } }
  else q

/-- Catch-branch setPrompts of executeScheduledPrompt (src/unnamed/part_000
lines 457-472), applied pointwise. -/
def failUpd (t1 : Nat) (pid : String) (q : Prompt) : Prompt :=
  if q.id = pid then
    { q with response := schedErrorResponse, source := "Erreur", updatedAt := t1,
             scheduled := some { q.scheduled.getD spreadAbsentSchedule with lastRun := some t1 } }
  else q

/-- executeScheduledPrompt (src/unnamed/part_000 lines 403-474).  t0 is the
instant captured at the start (stamped optimistically), t1 the completion or
error instant.  Returns the new prompt collection together with the trace of
state writes and the AI call start, in program order. -/
def executeScheduledPrompt (t0 t1 : Nat) (ai : String → Except String PerplexityResult)
    (p : Prompt) (st : List Prompt) : List Prompt × List Event :=
  match p.scheduled with
  | none => (st, [])
  | some _ =>
    let st1 := st.map (runUpd t0 p.id)
    match ai p.question with
    | .ok result =>
        (st1.map (doneUpd t1 result p.id),
         [.setRunning p.id t0, .aiStart p.id p.question, .setCompleted p.id t1])
    | .error _ =>
        (st1.map (failUpd t1 p.id),
         [.setRunning p.id t0, .aiStart p.id p.question, .setFailed p.id t1])

/-- Eligibility test of the missed-prompt scan (src/unnamed/part_000 lines
336-365): schedule present, isRecurring ?? true, scheduled moment of today
strictly in the past, lastRun (or the epoch when absent) not on the local
calendar day of now, response not already the in-progress sentinel, and the
scheduled moment more than 10 seconds in the past. -/
def missedEligible (tz : Int) (now : Nat) (p : Prompt) : Bool :=
  match p.scheduled with
  | none => false
  | some s =>
    (s.isRecurring.getD true) &&
    (decide (jsSetHoursToday tz now s.hour s.minute < (now : Int))) &&
    (decide (jsLocalDay tz (s.lastRun.getD 0) ≠ jsLocalDay tz now)) &&
    (!(jsStartsWith p.response "⏳")) &&
    (decide ((now : Int) - jsSetHoursToday tz now s.hour s.minute > 10000))

/-- The collection of missed prompts detected by one scan
(src/unnamed/part_000 lines 334-365). -/
def missedPrompts (tz : Int) (now : Nat) (ps : List Prompt) : List Prompt :=
  ps.filter (missedEligible tz now)

/-- Last-moment guard of the execution loop (src/unnamed/part_000 lines
374-375): the first prompt of the scanned collection with a matching id must
exist and must not carry the in-progress sentinel. -/
def passGuard (ps : List Prompt) (p : Prompt) : Bool :=
  match ps.find? (fun q => q.id == p.id) with
  | some currentPrompt => !(jsStartsWith currentPrompt.response "⏳")
  | none => false

/-- One iteration of the execution loop of checkMissedScheduledPrompts
(src/unnamed/part_000 lines 372-379). -/
def missedStep (now : Nat) (ai : String → Except String PerplexityResult)
    (ps : List Prompt) (acc : List Prompt × List Event) (p : Prompt) :
    List Prompt × List Event :=
  if passGuard ps p then
    let r := executeScheduledPrompt now now ai p acc.1
    (r.1, acc.2 ++ r.2)
  else acc

/-- checkMissedScheduledPrompts (src/unnamed/part_000 lines 321-385): scan
the collection for missed prompts, then execute each one that passes the
last-moment guard, threading the evolving collection.  The persisted
lastScheduleCheck timestamp is read by the source but never used by the
eligibility logic, so it does not appear here. -/
def checkMissedScheduledPrompts (tz : Int) (now : Nat)
    (ai : String → Except String PerplexityResult) (promptsToCheck : List Prompt) :
    List Prompt × List Event :=
  (missedPrompts tz now promptsToCheck).foldl (missedStep now ai promptsToCheck)
    (promptsToCheck, [])

/-- checkAndRunScheduledPrompts of the notification provider
(src/unnamed/part_000 lines 652-654): it delegates to
checkMissedScheduledPrompts on the current collection. -/
def checkAndRunScheduledPrompts (tz : Int) (now : Nat)
    (ai : String → Except String PerplexityResult) (prompts : List Prompt) :
    List Prompt × List Event :=
  checkMissedScheduledPrompts tz now ai prompts

/-- The pointwise effect of one executeScheduledPrompt call on an element of
the collection: untouched when the executed prompt has no schedule,
otherwise the running update followed by the success or failure update. -/
def stepFun (t0 t1 : Nat) (ai : String → Except String PerplexityResult)
    (p : Prompt) (q : Prompt) : Prompt :=
  match p.scheduled with
  | none => q
  | some _ =>
    match ai p.question with
    | .ok result => doneUpd t1 result p.id (runUpd t0 p.id q)
    | .error _ => failUpd t1 p.id (runUpd t0 p.id q)

/-- The event trace of one executeScheduledPrompt call; it does not depend
on the collection the call runs against. -/
def execTrace (t0 t1 : Nat) (ai : String → Except String PerplexityResult)
    (p : Prompt) : List Event :=
  match p.scheduled with
  | none => []
  | some _ =>
    match ai p.question with
    | .ok _ => [.setRunning p.id t0, .aiStart p.id p.question, .setCompleted p.id t1]
    | .error _ => [.setRunning p.id t0, .aiStart p.id p.question, .setFailed p.id t1]

/-- A prompt the matching update just touched: schedule present with lastRun
stamped at t1. -/
def stamped (t1 : Nat) (q : Prompt) : Prop :=
  ∃ sc, q.scheduled = some sc ∧ sc.lastRun = some t1

/-- Composition of the pointwise effects of a list of executions, in
execution order. -/
def chainExec (t0 t1 : Nat) (ai : String → Except String PerplexityResult) :
    List Prompt → Prompt → Prompt
  | [], q => q
  | p :: rest, q => chainExec t0 t1 ai rest (stepFun t0 t1 ai p q)

/-- The prompts actually executed by one checkMissedScheduledPrompts call:
the detected missed prompts that also pass the last-moment guard (the guard
reads the scanned snapshot, not the evolving collection, so this list is
determined by the input alone). -/
def executedList (tz : Int) (now : Nat) (ps : List Prompt) : List Prompt :=
  (missedPrompts tz now ps).filter (passGuard ps)

end Prisme.Notif

namespace Prisme.Phase2

/-- Due test of the Phase 2 checkAndRunScheduledPrompts
(src/app/context/PromptContext.tsx lines 786-796): schedule present, local
time of day at or past hour:minute, and lastRun absent or not starting with
the UTC date of now (lastRun?.startsWith(today) where today is the date
prefix of now.toISOString()).  The isRecurring field is not consulted. -/
def isDue (tz : Int) (now : Nat) (p : Prompt) : Bool :=
  match p.scheduled with
  | none => false
  | some s =>
    if jsGetHours tz now < (s.hour : Int) ∨
        (jsGetHours tz now = (s.hour : Int) ∧ jsGetMinutes tz now < (s.minute : Int)) then
      false
    else
      match s.lastRun with
      | some lr => !(decide (jsUtcDay lr = jsUtcDay now))
      | none => true

/-- The due sublist walked by the Phase 2 loop. -/
def duePrompts (tz : Int) (now : Nat) (ps : List Prompt) : List Prompt :=
  ps.filter (isDue tz now)

/-- Body of the Phase 2 loop for a due prompt
(src/app/context/PromptContext.tsx lines 798-824): await the AI call, then
push an updated copy -- response, source, updatedAt and scheduled.lastRun
overwritten on success, the error strings on a rejected call; in both
branches lastRun is stamped with now only after the call resolved. -/
def processDuePrompt (now : Nat) (ai : String → Except String PerplexityResult)
    (p : Prompt) : Prompt :=
  match ai p.question with
  | .ok result =>
    { p with response := result.response, source := result.sourcesFormatted, updatedAt := now,
             scheduled := p.scheduled.map (fun s => { s with lastRun := some now }) }
  | .error _ =>
    { p with response := phase2ErrorResponse, source := "Erreur", updatedAt := now,
             scheduled := p.scheduled.map (fun s => { s with lastRun := some now }) }

/-- The promptsToUpdate list accumulated by the Phase 2 loop. -/
def promptsToUpdate (tz : Int) (now : Nat) (ai : String → Except String PerplexityResult)
    (ps : List Prompt) : List Prompt :=
  (duePrompts tz now ps).map (processDuePrompt now ai)

/-- Final setPrompts of the Phase 2 due check
(src/app/context/PromptContext.tsx lines 827-832): replace each prompt by
the first accumulated update with the same id, if any. -/
def mergeUpdates (updates : List Prompt) (ps : List Prompt) : List Prompt :=
  ps.map (fun p => (updates.find? (fun u => u.id == p.id)).getD p)

/-- checkAndRunScheduledPrompts (src/app/context/PromptContext.tsx lines
778-836).  The state update is applied only when at least one prompt was
processed; the trace records one AI call start per due prompt, in loop
order -- no state is written before a call starts. -/
def checkAndRunScheduledPrompts (tz : Int) (now : Nat)
    (ai : String → Except String PerplexityResult) (prompts : List Prompt) :
    List Prompt × List Event :=
  ((if (promptsToUpdate tz now ai prompts).isEmpty then prompts
    else mergeUpdates (promptsToUpdate tz now ai prompts) prompts),
   (duePrompts tz now prompts).map (fun p => Event.aiStart p.id p.question))

end Prisme.Phase2

namespace Prisme.Fetch

/-- Character class of the \w regex atom: ASCII letters, digits and the
underscore. -/
def isWordChar (c : Char) : Bool := c.isAlpha || c.isDigit || c = '_'

/-- Domain characters of the URL regex: [-\w.]. -/
def isDomainChar (c : Char) : Bool := c = '-' || isWordChar c || c = '.'

/-- Path characters: [\w\/_.]. -/
def isPathChar (c : Char) : Bool := isWordChar c || c = '/' || c = '.'

/-- Query characters: [\w&=%.]. -/
def isQueryChar (c : Char) : Bool :=
  isWordChar c || c = '&' || c = '=' || c = '%' || c = '.'

/-- Fragment characters: [\w.]. -/
def isFragChar (c : Char) : Bool := isWordChar c || c = '.'

/-- Length of the maximal prefix of characters satisfying p: the greedy
matching of a starred character class. -/
def spanLen (p : Char → Bool) (cs : List Char) : Nat := (cs.takeWhile p).length

/-- Length matched by the protocol part https?:\/\/ at this position, if
any.  The optional s is greedy, and the character classes that follow are
disjoint from it, so no other backtracking can occur. -/
def protoLen (cs : List Char) : Option Nat :=
  if List.isPrefixOf "https://".toList cs then some 8
  else if List.isPrefixOf "http://".toList cs then some 7
  else none

/-- Length matched by the optional port group (?:\:[0-9]+)?. -/
def portLen (cs : List Char) : Nat :=
  match cs with
  | ':' :: rest => let d := spanLen Char.isDigit rest; if d = 0 then 0 else d + 1
  | _ => 0

/-- Length matched by the optional query group (?:\?(?:[\w&=%.])*)?. -/
def queryLen (cs : List Char) : Nat :=
  match cs with
  | '?' :: rest => 1 + spanLen isQueryChar rest
  | _ => 0

/-- Length matched by the optional fragment group (?:\#(?:[\w.])*)?. -/
def fragLen (cs : List Char) : Nat :=
  match cs with
  | '#' :: rest => 1 + spanLen isFragChar rest
  | _ => 0

/-- Length matched by the optional path group
(?:\/(?:[\w\/_.])*(?:\?...)?(?:\#...)?)?: query and fragment can only occur
after a slash. -/
def pathLen (cs : List Char) : Nat :=
  match cs with
  | '/' :: rest =>
    let a := spanLen isPathChar rest
    let r2 := rest.drop a
    let q := queryLen r2
    1 + a + q + fragLen (r2.drop q)
  | _ => 0

/-- Length matched at this position by the URL regex of extractSources
(src/app/utils/fetchAiResponse.ts line 73):
https?:\/\/(?:[-\w.])+(?:\:[0-9]+)?(?:\/(?:[\w\/_.])*(?:\?(?:[\w&=%.])*)?(?:\#(?:[\w.])*)?)?
Greedy throughout; none when the mandatory protocol or the non-empty domain
is missing. -/
def urlMatchLen (cs : List Char) : Option Nat :=
  match protoLen cs with
  | none => none
  | some k =>
    let r1 := cs.drop k
    let d := spanLen isDomainChar r1
    if d = 0 then none
    else
      let r2 := r1.drop d
      let pl := portLen r2
      some (k + d + pl + pathLen (r2.drop pl))

/-- Fuel-bounded worker for findUrls: try a match at the current position,
emit it and resume after its end, or move one character right.  The fuel
only bounds the recursion; findUrls passes the length of the text, which is
sufficient because every step consumes at least one character
(urlMatchLen_pos). -/
def findUrlsAux : Nat → List Char → List String
  | 0, _ => []
  | _, [] => []
  | fuel + 1, c :: rest =>
    match urlMatchLen (c :: rest) with
    | some n => String.mk ((c :: rest).take n) :: findUrlsAux fuel ((c :: rest).drop n)
    | none => findUrlsAux fuel rest

/-- All matches of the URL regex over the text, in the order produced by
String.matchAll: try each position from left to right, and resume after the
end of each match. -/
def findUrls (cs : List Char) : List String := findUrlsAux cs.length cs

/-- The indexOf-based deduplication of extractSources, keeping the first
occurrence of each URL.  The seen accumulator holds the URLs already
emitted. -/
def dedupFirst (seen : List String) : List String → List String
  | [] => []
  | x :: xs =>
    if x ∈ seen then dedupFirst seen xs
    else x :: dedupFirst (x :: seen) xs

/-- extractSources (src/app/utils/fetchAiResponse.ts lines 60-87): all regex
matches, deduplicated keeping first occurrences, limited to 5. -/
def extractSources (text : String) : List String :=
  ((dedupFirst [] (findUrls text.toList)).take 5)

/-- formatSources (src/app/utils/fetchAiResponse.ts lines 103-112). -/
def formatSources (sources : List String) : String :=
  match sources with
  | [] => "Perplexity"
  | [u] => u
  | _ => String.intercalate ", " sources

/-- Replace the first occurrence of pat in the character list, if any. -/
def replaceFirstSub (pat : List Char) : List Char → List Char
  | [] => []
  | c :: rest =>
    if List.isPrefixOf pat (c :: rest) then (c :: rest).drop pat.length
    else c :: replaceFirstSub pat rest

/-- Characters after the first :// separator, if present. -/
def afterScheme : List Char → Option (List Char)
  | [] => none
  | ':' :: '/' :: '/' :: rest => some rest
  | _ :: rest => afterScheme rest

/-- getDomainName (src/app/utils/fetchAiResponse.ts lines 128-142).  The
expression new URL(url).hostname is embedded as the lowercased authority
substring: the characters between :// and the first of : / ? #.  An input on
which URL construction throws (no scheme separator or empty host) takes the
catch branch: the first 30 characters followed by three dots. -/
def getDomainName (url : String) : String :=
  match afterScheme url.toList with
  | some rest =>
    let host := rest.takeWhile (fun c => !(c = ':' || c = '/' || c = '?' || c = '#'))
    if host.isEmpty then url.take 30 ++ "..."
    else String.mk (replaceFirstSub "www.".toList (host.map Char.toLower))
  | none => url.take 30 ++ "..."

/-- Outcome of the axios POST inside fetchAiResponseWithSources: a resolved
response carrying choices[0]?.message?.content (absent when the payload is
missing pieces), an axios error with its optional HTTP status and error
code, or a non-axios error. -/
inductive FetchOutcome where
  | ok (content : Option String)
  | axiosErr (status : Option Nat) (code : Option String)
  | otherErr
deriving DecidableEq, Repr

/-- Truthiness of the optional HTTP status combined with the 5xx test:
status && status >= 500. -/
def isServerErr (status : Option Nat) : Bool :=
  match status with
  | some s => decide (500 ≤ s)
  | none => false

/-- fetchAiResponseWithSources (src/app/utils/fetchAiResponse.ts lines
168-432), as a total function of the configured API key (absent or empty is
falsy) and of the HTTP outcome.  Every branch of the source returns a
PerplexityResult; no branch throws. -/
def fetchAiResponseWithSources (apiKey : Option String) (outcome : FetchOutcome) :
    PerplexityResult :=
  if apiKey.getD "" = "" then
    { response := "🔐 Erreur de configuration : Clé API manquante. Vérifiez votre fichier .env",
      sources := [], sourcesFormatted := "Erreur", sourcesDisplay := "Erreur" }
  else
    match outcome with
    | .ok content =>
      let aiResponse := jsTrim (content.getD "")
      if aiResponse = "" then
        { response := "Désolé, je n\x27ai pas pu générer une réponse.",
          sources := [], sourcesFormatted := "Perplexity", sourcesDisplay := "Perplexity" }
      else
        let sources := extractSources aiResponse
        { response := aiResponse, sources := sources,
          sourcesFormatted := formatSources sources,
          sourcesDisplay :=
            if sources.length > 0 then
              String.intercalate ", " (sources.map getDomainName)
            else "Perplexity" }
    | .axiosErr status code =>
      if status = some 400 then
        { response := "🔧 Erreur de requête (400). Le format de la demande n\x27est pas valide. Veuillez réessayer avec un prompt différent.",
          sources := [], sourcesFormatted := "Erreur de format", sourcesDisplay := "Erreur de format" }
      else if status = some 401 then
        { response := "🔐 Problème d\x27authentification. Vérifiez votre clé API Perplexity et vos crédits disponibles.",
          sources := [], sourcesFormatted := "Erreur d\x27authentification", sourcesDisplay := "Erreur d\x27authentification" }
      else if status = some 403 then
        { response := "🚫 Accès refusé. Votre plan Perplexity ne permet peut-être pas d\x27utiliser cette fonctionnalité.",
          sources := [], sourcesFormatted := "Accès refusé", sourcesDisplay := "Accès refusé" }
      else if status = some 429 then
        { response := "⏳ Limite de taux atteinte. Vous envoyez trop de requêtes. Patientez quelques instants avant de réessayer.",
          sources := [], sourcesFormatted := "Limite atteinte", sourcesDisplay := "Limite atteinte" }
      else if code = some "ECONNABORTED" then
        { response := "⏱️ Délai d\x27attente dépassé. Vérifiez votre connexion internet et réessayez.",
          sources := [], sourcesFormatted := "Timeout", sourcesDisplay := "Timeout" }
      else if isServerErr status then
        { response := "🔧 Problème temporaire du serveur Perplexity. Réessayez dans quelques minutes.",
          sources := [], sourcesFormatted := "Erreur serveur", sourcesDisplay := "Erreur serveur" }
      else
        { response := "❌ Une erreur inattendue s\x27est produite. Vérifiez votre connexion et réessayez dans quelques instants.",
          sources := [], sourcesFormatted := "Erreur inconnue", sourcesDisplay := "Erreur inconnue" }
    | .otherErr =>
      { response := "❌ Une erreur inattendue s\x27est produite. Vérifiez votre connexion et réessayez dans quelques instants.",
        sources := [], sourcesFormatted := "Erreur inconnue", sourcesDisplay := "Erreur inconnue" }

end Prisme.Fetch

namespace Prisme.Fetch

theorem protoLen_pos {cs : List Char} {k : Nat} (h : protoLen cs = some k) : 0 < k := by
  unfold protoLen at h
  split at h
  · simp at h; omega
  · split at h
    · simp at h; omega
    · simp at h

theorem urlMatchLen_pos {cs : List Char} {n : Nat} (h : urlMatchLen cs = some n) : 0 < n := by
  unfold urlMatchLen at h
  cases hp : protoLen cs with
  | none => rw [hp] at h; exact absurd h (by simp)
  | some k =>
    rw [hp] at h
    have hk := protoLen_pos hp
    by_cases hd : spanLen isDomainChar (cs.drop k) = 0
    · simp [hd] at h
    · simp [hd] at h
      omega

end Prisme.Fetch

namespace Prisme.Notif

theorem exec_eq (t0 t1 : Nat) (ai : String → Except String PerplexityResult)
    (p : Prompt) (st : List Prompt) :
    executeScheduledPrompt t0 t1 ai p st = (st.map (stepFun t0 t1 ai p), execTrace t0 t1 ai p) := by
  unfold executeScheduledPrompt stepFun execTrace
  cases hs : p.scheduled with
  | none => simp [List.map_id']
  | some s =>
    cases hai : ai p.question with
    | ok r => simp [List.map_map, Function.comp_def]
    | error e => simp [List.map_map, Function.comp_def]

theorem runUpd_id (t0 : Nat) (pid : String) (q : Prompt) : (runUpd t0 pid q).id = q.id := by
  unfold runUpd; split <;> rfl

theorem doneUpd_id (t1 : Nat) (r : PerplexityResult) (pid : String) (q : Prompt) :
    (doneUpd t1 r pid q).id = q.id := by
  unfold doneUpd; split <;> rfl

theorem failUpd_id (t1 : Nat) (pid : String) (q : Prompt) : (failUpd t1 pid q).id = q.id := by
  unfold failUpd; split <;> rfl

theorem stepFun_id (t0 t1 : Nat) (ai : String → Except String PerplexityResult)
    (p q : Prompt) : (stepFun t0 t1 ai p q).id = q.id := by
  unfold stepFun
  cases p.scheduled with
  | none => rfl
  | some s =>
    cases ai p.question with
    | ok r => rw [doneUpd_id, runUpd_id]
    | error e => rw [failUpd_id, runUpd_id]

theorem stepFun_of_ne (t0 t1 : Nat) (ai : String → Except String PerplexityResult)
    {p q : Prompt} (h : q.id ≠ p.id) : stepFun t0 t1 ai p q = q := by
  unfold stepFun runUpd doneUpd failUpd
  cases p.scheduled with
  | none => rfl
  | some s =>
    cases ai p.question with
    | ok r => simp [h]
    | error e => simp [h]

theorem stepFun_stamped (t0 t1 : Nat) (ai : String → Except String PerplexityResult)
    {p : Prompt} (s : Schedule) (hs : p.scheduled = some s) {q : Prompt}
    (h : q.id = p.id) : stamped t1 (stepFun t0 t1 ai p q) := by
  unfold stepFun
  rw [hs]
  have hid : (runUpd t0 p.id q).id = p.id := by rw [runUpd_id]; exact h
  cases ai p.question with
  | ok r =>
    refine ⟨{ (runUpd t0 p.id q).scheduled.getD spreadAbsentSchedule with lastRun := some t1 },
      ?_, rfl⟩
    simp [doneUpd, hid]
  | error e =>
    refine ⟨{ (runUpd t0 p.id q).scheduled.getD spreadAbsentSchedule with lastRun := some t1 },
      ?_, rfl⟩
    simp [failUpd, hid]

theorem chainExec_id (t0 t1 : Nat) (ai : String → Except String PerplexityResult)
    (l : List Prompt) (q : Prompt) : (chainExec t0 t1 ai l q).id = q.id := by
  induction l generalizing q with
  | nil => rfl
  | cons p rest ih => rw [chainExec, ih, stepFun_id]

theorem chainExec_untouched (t0 t1 : Nat) (ai : String → Except String PerplexityResult)
    {l : List Prompt} {q : Prompt} (h : ∀ p ∈ l, q.id ≠ p.id) :
    chainExec t0 t1 ai l q = q := by
  induction l with
  | nil => rfl
  | cons p rest ih =>
    rw [chainExec, stepFun_of_ne t0 t1 ai (h p (by simp))]
    exact ih fun r hr => h r (by simp [hr])

theorem chainExec_keeps_stamped (t0 t1 : Nat) (ai : String → Except String PerplexityResult)
    {l : List Prompt} {q : Prompt} (h : stamped t1 q) :
    stamped t1 (chainExec t0 t1 ai l q) := by
  induction l generalizing q with
  | nil => exact h
  | cons p rest ih =>
    rw [chainExec]
    refine ih ?_
    by_cases hq : q.id = p.id
    · cases hp : p.scheduled with
      | none => unfold stepFun; rw [hp]; exact h
      | some s => exact stepFun_stamped t0 t1 ai s hp hq
    · rw [stepFun_of_ne t0 t1 ai hq]; exact h

theorem chainExec_stamped (t0 t1 : Nat) (ai : String → Except String PerplexityResult)
    {l : List Prompt} {q : Prompt}
    (h : ∃ p ∈ l, p.id = q.id ∧ p.scheduled.isSome) :
    stamped t1 (chainExec t0 t1 ai l q) := by
  induction l generalizing q with
  | nil => exact absurd h (by simp)
  | cons p rest ih =>
    obtain ⟨r, hr, hrid, hrs⟩ := h
    rw [chainExec]
    rcases List.mem_cons.mp hr with rfl | hmem
    · obtain ⟨s, hs⟩ := Option.isSome_iff_exists.mp hrs
      exact chainExec_keeps_stamped t0 t1 ai (stepFun_stamped t0 t1 ai s hs hrid.symm)
    · exact ih ⟨r, hmem, by rw [stepFun_id]; exact hrid, hrs⟩

theorem foldExec_eq (now : Nat) (ai : String → Except String PerplexityResult)
    (ps : List Prompt) (l : List Prompt) :
    ∀ (st : List Prompt) (evs : List Event),
      l.foldl (missedStep now ai ps) (st, evs) =
        (st.map (chainExec now now ai (l.filter (passGuard ps))),
         evs ++ (l.filter (passGuard ps)).flatMap (execTrace now now ai)) := by
  induction l with
  | nil =>
    intro st evs
    simp only [List.foldl_nil, List.filter_nil, List.flatMap_nil, List.append_nil]
    rw [List.map_id'' (fun q => by simp [chainExec])]
  | cons p rest ih =>
    intro st evs
    rw [List.foldl_cons]
    by_cases hg : passGuard ps p = true
    · have hstep : missedStep now ai ps (st, evs) p =
          (st.map (stepFun now now ai p), evs ++ execTrace now now ai p) := by
        simp [missedStep, hg, exec_eq]
      rw [hstep, ih, List.filter_cons_of_pos hg]
      simp only [List.map_map, List.flatMap_cons, List.append_assoc]
      rfl
    · have hstep : missedStep now ai ps (st, evs) p = (st, evs) := by
        simp [missedStep, hg]
      rw [hstep, ih, List.filter_cons_of_neg hg]

theorem checkMissed_eq (tz : Int) (now : Nat) (ai : String → Except String PerplexityResult)
    (ps : List Prompt) :
    checkMissedScheduledPrompts tz now ai ps =
      (ps.map (chainExec now now ai (executedList tz now ps)),
       (executedList tz now ps).flatMap (execTrace now now ai)) := by
  unfold checkMissedScheduledPrompts executedList
  rw [foldExec_eq]
  simp

theorem checkMissed_of_no_missed {tz : Int} {now : Nat}
    {ai : String → Except String PerplexityResult} {ps : List Prompt}
    (h : missedPrompts tz now ps = []) :
    checkMissedScheduledPrompts tz now ai ps = (ps, []) := by
  unfold checkMissedScheduledPrompts
  rw [h]
  rfl

theorem find_self {ps : List Prompt} (hnd : (ps.map Prompt.id).Nodup) {p : Prompt}
    (hp : p ∈ ps) : ps.find? (fun q => q.id == p.id) = some p := by
  induction ps with
  | nil => cases hp
  | cons a t ih =>
    rw [List.map_cons, List.nodup_cons] at hnd
    by_cases ha : a.id = p.id
    · have hap : a = p := by
        rcases List.mem_cons.mp hp with rfl | hpt
        · rfl
        · exact absurd (ha ▸ List.mem_map_of_mem Prompt.id hpt) hnd.1
      subst hap
      simp
    · have hpt : p ∈ t := by
        rcases List.mem_cons.mp hp with rfl | hpt
        · exact absurd rfl ha
        · exact hpt
      rw [List.find?_cons_of_neg _ (by simp [ha]), ih hnd.2 hpt]

theorem missedEligible_scheduled {tz : Int} {now : Nat} {p : Prompt}
    (h : missedEligible tz now p = true) : p.scheduled.isSome := by
  unfold missedEligible at h
  cases hs : p.scheduled with
  | none => rw [hs] at h; cases h
  | some s => rfl

theorem missedEligible_not_running {tz : Int} {now : Nat} {p : Prompt}
    (h : missedEligible tz now p = true) : jsStartsWith p.response "⏳" = false := by
  unfold missedEligible at h
  cases hs : p.scheduled with
  | none => rw [hs] at h; cases h
  | some s =>
    rw [hs] at h
    simp only [Bool.and_eq_true, Bool.not_eq_true'] at h
    exact h.1.2

theorem missedEligible_of_stamped {tz : Int} {now : Nat} {p : Prompt}
    (h : stamped now p) : missedEligible tz now p = false := by
  obtain ⟨sc, hsc, hlr⟩ := h
  unfold missedEligible
  rw [hsc]
  simp [hlr]

theorem passGuard_of_eligible {tz : Int} {now : Nat} {ps : List Prompt}
    (hnd : (ps.map Prompt.id).Nodup) {p : Prompt} (hp : p ∈ ps)
    (he : missedEligible tz now p = true) : passGuard ps p = true := by
  unfold passGuard
  rw [find_self hnd hp]
  simp [missedEligible_not_running he]

theorem executedList_eq {tz : Int} {now : Nat} {ps : List Prompt}
    (hnd : (ps.map Prompt.id).Nodup) : executedList tz now ps = missedPrompts tz now ps := by
  unfold executedList
  refine List.filter_eq_self.mpr fun a ha => ?_
  have hmem := List.mem_filter.mp ha
  exact passGuard_of_eligible hnd hmem.1 hmem.2

theorem missed_out_not_eligible {tz : Int} {now : Nat}
    {ai : String → Except String PerplexityResult} {ps : List Prompt}
    (hnd : (ps.map Prompt.id).Nodup) :
    ∀ x ∈ (checkMissedScheduledPrompts tz now ai ps).1, ¬(missedEligible tz now x = true) := by
  intro x hx
  rw [checkMissed_eq, executedList_eq hnd] at hx
  obtain ⟨q, hq, rfl⟩ := List.mem_map.mp hx
  by_cases hcase : ∃ p ∈ missedPrompts tz now ps, p.id = q.id
  · obtain ⟨p, hpmem, hpid⟩ := hcase
    have hp' : p ∈ ps := (List.mem_filter.mp hpmem).1
    have hpq : p = q := List.inj_on_of_nodup_map hnd hp' hq hpid
    subst hpq
    have helig : missedEligible tz now p = true := (List.mem_filter.mp hpmem).2
    have hst := chainExec_stamped now now ai ⟨p, hpmem, rfl, missedEligible_scheduled helig⟩
    rw [missedEligible_of_stamped hst]
    simp
  · push_neg at hcase
    rw [chainExec_untouched now now ai (fun p hp => fun h => hcase p hp h.symm)]
    intro habs
    exact hcase q (List.mem_filter.mpr ⟨hq, habs⟩) rfl

theorem missed_second_pass {tz : Int} {now : Nat}
    {ai : String → Except String PerplexityResult} {ps : List Prompt}
    (hnd : (ps.map Prompt.id).Nodup) :
    (checkMissedScheduledPrompts tz now ai
      (checkMissedScheduledPrompts tz now ai ps).1).2 = [] := by
  have hnil : missedPrompts tz now (checkMissedScheduledPrompts tz now ai ps).1 = [] :=
    List.filter_eq_nil_iff.mpr (missed_out_not_eligible hnd)
  rw [checkMissed_of_no_missed hnil]

end Prisme.Notif

namespace Prisme.Phase2

theorem isDue_scheduled {tz : Int} {now : Nat} {p : Prompt}
    (h : isDue tz now p = true) : p.scheduled.isSome := by
  unfold isDue at h
  cases hs : p.scheduled with
  | none => rw [hs] at h; cases h
  | some s => rfl

theorem processDuePrompt_id (now : Nat) (ai : String → Except String PerplexityResult)
    (p : Prompt) : (processDuePrompt now ai p).id = p.id := by
  unfold processDuePrompt
  cases ai p.question <;> rfl

theorem processDuePrompt_scheduled {now : Nat} {ai : String → Except String PerplexityResult}
    {p : Prompt} {s : Schedule} (hs : p.scheduled = some s) :
    (processDuePrompt now ai p).scheduled = some { s with lastRun := some now } := by
  unfold processDuePrompt
  cases ai p.question <;> simp [hs]

theorem isDue_lastRun_today {tz : Int} {now : Nat} {p : Prompt} {s : Schedule}
    (hs : p.scheduled = some s) (hlr : s.lastRun = some now) : isDue tz now p = false := by
  unfold isDue
  rw [hs]
  simp [hlr]

theorem isDue_processed {tz : Int} {now : Nat} {ai : String → Except String PerplexityResult}
    {p : Prompt} (hdue : isDue tz now p = true) :
    isDue tz now (processDuePrompt now ai p) = false := by
  obtain ⟨s, hs⟩ := Option.isSome_iff_exists.mp (isDue_scheduled hdue)
  exact isDue_lastRun_today (processDuePrompt_scheduled hs) rfl

theorem phase2_out_not_due {tz : Int} {now : Nat}
    {ai : String → Except String PerplexityResult} {ps : List Prompt} :
    ∀ x ∈ (checkAndRunScheduledPrompts tz now ai ps).1, ¬(isDue tz now x = true) := by
  intro x hx
  unfold checkAndRunScheduledPrompts at hx
  by_cases hemp : (promptsToUpdate tz now ai ps).isEmpty
  · rw [if_pos hemp] at hx
    have hdue : duePrompts tz now ps = [] := by
      have := List.isEmpty_iff.mp hemp
      unfold promptsToUpdate at this
      exact List.map_eq_nil_iff.mp this
    have hnone := List.filter_eq_nil_iff.mp hdue
    exact hnone x hx
  · rw [if_neg hemp] at hx
    obtain ⟨q, hq, rfl⟩ := List.mem_map.mp hx
    cases hfind : (promptsToUpdate tz now ai ps).find? (fun u => u.id == q.id) with
    | some u =>
      simp only [hfind, Option.getD_some]
      obtain ⟨r, hr, rfl⟩ := List.mem_map.mp (List.mem_of_find?_eq_some hfind)
      have hrdue : isDue tz now r = true := (List.mem_filter.mp hr).2
      rw [isDue_processed hrdue]
      simp
    | none =>
      simp only [hfind, Option.getD_none]
      intro habs
      have hqdue : q ∈ duePrompts tz now ps := List.mem_filter.mpr ⟨hq, habs⟩
      have hmem : processDuePrompt now ai q ∈ promptsToUpdate tz now ai ps :=
        List.mem_map_of_mem (processDuePrompt now ai) hqdue
      have := List.find?_eq_none.mp hfind _ hmem
      rw [processDuePrompt_id] at this
      simp at this

theorem phase2_second_pass {tz : Int} {now : Nat}
    {ai : String → Except String PerplexityResult} {ps : List Prompt} :
    (checkAndRunScheduledPrompts tz now ai
      (checkAndRunScheduledPrompts tz now ai ps).1).2 = [] := by
  have hnil : duePrompts tz now (checkAndRunScheduledPrompts tz now ai ps).1 = [] :=
    List.filter_eq_nil_iff.mpr phase2_out_not_due
  conv_lhs => rw [checkAndRunScheduledPrompts]
  rw [hnil]
  rfl

end Prisme.Phase2

namespace Prisme.Fetch

theorem dedupFirst_nodup_aux :
    ∀ (l seen : List String), (dedupFirst seen l).Nodup ∧ ∀ x ∈ dedupFirst seen l, x ∉ seen := by
  intro l
  induction l with
  | nil => intro seen; exact ⟨List.nodup_nil, by simp [dedupFirst]⟩
  | cons x xs ih =>
    intro seen
    by_cases hx : x ∈ seen
    · rw [dedupFirst, if_pos hx]
      exact ih seen
    · rw [dedupFirst, if_neg hx]
      obtain ⟨hnd, hout⟩ := ih (x :: seen)
      refine ⟨List.nodup_cons.mpr ⟨fun hmem => (hout x hmem) (by simp), hnd⟩, ?_⟩
      intro y hy
      rcases List.mem_cons.mp hy with rfl | hyt
      · exact hx
      · intro hseen
        exact hout y hyt (by simp [hseen])

theorem dedupFirst_subset {seen l : List String} {x : String}
    (h : x ∈ dedupFirst seen l) : x ∈ l := by
  induction l generalizing seen with
  | nil => simp [dedupFirst] at h
  | cons a t ih =>
    by_cases ha : a ∈ seen
    · rw [dedupFirst, if_pos ha] at h
      exact List.mem_cons_of_mem a (ih h)
    · rw [dedupFirst, if_neg ha] at h
      rcases List.mem_cons.mp h with rfl | ht
      · exact List.mem_cons_self x t
      · exact List.mem_cons_of_mem a (ih ht)

theorem extractSources_length_le (t : String) : (extractSources t).length ≤ 5 := by
  unfold extractSources
  rw [List.length_take]
  exact Nat.min_le_left 5 _

theorem extractSources_nodup (t : String) : (extractSources t).Nodup :=
  List.Nodup.sublist (List.take_sublist 5 _) (dedupFirst_nodup_aux (findUrls t.toList) []).1

theorem extractSources_subset {t : String} {u : String} (h : u ∈ extractSources t) :
    u ∈ findUrls t.toList :=
  dedupFirst_subset (List.take_subset 5 _ h)

theorem fetch_keyMissing {apiKey : Option String} (hkey : apiKey.getD "" = "")
    (outcome : FetchOutcome) :
    (fetchAiResponseWithSources apiKey outcome).sources = [] ∧
      (fetchAiResponseWithSources apiKey outcome).response ≠ "" := by
  unfold fetchAiResponseWithSources
  rw [if_pos hkey]
  exact ⟨rfl, by decide⟩

theorem fetch_axios_shape {apiKey : Option String} (hkey : ¬(apiKey.getD "" = ""))
    (st : Option Nat) (cd : Option String) :
    (fetchAiResponseWithSources apiKey (.axiosErr st cd)).sources = [] ∧
      (fetchAiResponseWithSources apiKey (.axiosErr st cd)).response ≠ "" := by
  unfold fetchAiResponseWithSources
  rw [if_neg hkey]
  dsimp only
  split_ifs <;> exact ⟨rfl, by decide⟩

theorem fetch_otherErr_shape {apiKey : Option String} (hkey : ¬(apiKey.getD "" = "")) :
    (fetchAiResponseWithSources apiKey .otherErr).sources = [] ∧
      (fetchAiResponseWithSources apiKey .otherErr).response ≠ "" := by
  unfold fetchAiResponseWithSources
  rw [if_neg hkey]
  dsimp only
  exact ⟨rfl, by decide⟩

theorem fetch_ok_empty {apiKey : Option String} (hkey : ¬(apiKey.getD "" = ""))
    {content : Option String} (htrim : jsTrim (content.getD "") = "") :
    (fetchAiResponseWithSources apiKey (.ok content)).sources = [] ∧
      (fetchAiResponseWithSources apiKey (.ok content)).response ≠ "" := by
  unfold fetchAiResponseWithSources
  rw [if_neg hkey]
  dsimp only
  rw [if_pos htrim]
  exact ⟨rfl, by decide⟩

theorem fetch_ok_success {apiKey : Option String} (hkey : ¬(apiKey.getD "" = ""))
    {content : Option String} (htrim : ¬(jsTrim (content.getD "") = "")) :
    (fetchAiResponseWithSources apiKey (.ok content)).response = jsTrim (content.getD "") ∧
      (fetchAiResponseWithSources apiKey (.ok content)).sources =
        extractSources (jsTrim (content.getD "")) := by
  unfold fetchAiResponseWithSources
  rw [if_neg hkey]
  dsimp only
  rw [if_neg htrim]
  exact ⟨rfl, rfl⟩

end Prisme.Fetch

namespace Prisme

/-- C7: clearPrompts removes exactly the prompts without a schedule and
retains exactly the prompts with a schedule, regardless of the isRecurring
flag or lastRun state of the retained schedules, and the collection handed
to the persistent store by the immediate (awaited, non-debounced) write is
exactly the retained collection. -/
theorem c7_clear_preserves_scheduled :
    ∀ ps : List Prompt,
      (clearPrompts ps).2 = (clearPrompts ps).1 ∧
      (clearPrompts ps).1 = ps.filter (fun p => p.scheduled.isSome) ∧
      ∀ p : Prompt, p ∈ (clearPrompts ps).1 ↔ p ∈ ps ∧ p.scheduled.isSome = true := by
  intro ps
  refine ⟨rfl, rfl, fun p => ?_⟩
  simp [clearPrompts, List.mem_filter]

/-- C8 counterexample: the load migration writes category through the
JavaScript expression prompt.category || "other", and the empty string is
falsy, so a loaded prompt whose category field is present (but empty) does
not keep it -- it is replaced by "other".  This falsifies the part of the
claim asserting that every prompt with a category present keeps it. -/
theorem c8_counterexample :
    emptyCategoryPrompt.category = some "" ∧
      (migrateCategories [emptyCategoryPrompt]).map (fun p => p.category) = [some "other"] ∧
      some "other" ≠ (some "" : Option String) := by
  refine ⟨rfl, rfl, by decide⟩

/-- C8 (amended): on load, every prompt whose category is missing or empty
(the two falsy cases of prompt.category) is assigned "other"; every prompt
with a non-empty category keeps it; and after migration every prompt of the
collection carries a non-empty category. -/
theorem c8_category_default :
    ∀ (ps : List Prompt) (p : Prompt),
      migrateCategories ps = ps.map migrateCategory ∧
      ((p.category = none ∨ p.category = some "") →
        (migrateCategory p).category = some "other") ∧
      (∀ s : String, p.category = some s → s ≠ "" → (migrateCategory p).category = some s) ∧
      (∀ q ∈ migrateCategories ps, ∃ c : String, q.category = some c ∧ c ≠ "") := by
  intro ps p
  refine ⟨rfl, ?_, ?_, ?_⟩
  · rintro (h | h) <;> simp [migrateCategory, jsOrString, h]
  · intro s hs hne
    simp [migrateCategory, jsOrString, hs, hne]
  · intro q hq
    obtain ⟨r, hr, rfl⟩ := List.mem_map.mp hq
    unfold migrateCategory jsOrString
    cases hc : r.category with
    | none => exact ⟨"other", rfl, by decide⟩
    | some s =>
      dsimp only
      by_cases hs : s = ""
      · rw [if_pos hs]; exact ⟨"other", rfl, by decide⟩
      · rw [if_neg hs]; exact ⟨s, rfl, hs⟩

/-- C8 witness: the amended theorem applied to one concrete two-element
load: a prompt without a category becomes "other", a prompt with category
"tech" keeps it. -/
theorem c8_witness :
    (migrateCategory noCategoryPrompt).category = some "other" ∧
      (migrateCategory techCategoryPrompt).category = some "tech" := by
  constructor
  · exact (c8_category_default [] noCategoryPrompt).2.1 (Or.inl rfl)
  · exact (c8_category_default [] techCategoryPrompt).2.2.1 "tech" rfl (by decide)

end Prisme

namespace Prisme.Fetch

/-- C10: fetchAiResponseWithSources is total at its interface: for every API
key configuration and every outcome of the HTTP call it returns a
PerplexityResult (no branch throws); the response string is never empty; the
sources list always has at most 5 pairwise-distinct entries; on every
failure path (missing key, axios error of any status or code, non-axios
error, or empty/unparseable payload) the sources list is empty; and on
success the response is the trimmed payload and the sources are the at most
5 deduplicated URLs extracted from it. -/
theorem c10_fetch_total :
    ∀ (apiKey : Option String) (outcome : FetchOutcome),
      (fetchAiResponseWithSources apiKey outcome).response ≠ "" ∧
      (fetchAiResponseWithSources apiKey outcome).sources.length ≤ 5 ∧
      (fetchAiResponseWithSources apiKey outcome).sources.Nodup ∧
      (apiKey.getD "" = "" → (fetchAiResponseWithSources apiKey outcome).sources = []) ∧
      (∀ (st : Option Nat) (cd : Option String), outcome = .axiosErr st cd →
        (fetchAiResponseWithSources apiKey outcome).sources = []) ∧
      (outcome = .otherErr → (fetchAiResponseWithSources apiKey outcome).sources = []) ∧
      (∀ content : Option String, outcome = .ok content → jsTrim (content.getD "") = "" →
        (fetchAiResponseWithSources apiKey outcome).sources = []) ∧
      (∀ content : Option String, outcome = .ok content → jsTrim (content.getD "") ≠ "" →
        apiKey.getD "" ≠ "" →
        (fetchAiResponseWithSources apiKey outcome).response = jsTrim (content.getD "") ∧
        (fetchAiResponseWithSources apiKey outcome).sources =
          extractSources (jsTrim (content.getD "")) ∧
        ∀ u ∈ (fetchAiResponseWithSources apiKey outcome).sources,
          u ∈ findUrls (jsTrim (content.getD "")).toList) := by
  intro apiKey outcome
  by_cases hkey : apiKey.getD "" = ""
  · obtain ⟨hsrc, hresp⟩ := fetch_keyMissing hkey outcome
    refine ⟨hresp, by rw [hsrc]; exact Nat.zero_le 5, by rw [hsrc]; exact List.nodup_nil,
      fun _ => hsrc, fun _ _ _ => hsrc, fun _ => hsrc, fun _ _ _ => hsrc, ?_⟩
    intro content hout htrim hk
    exact absurd hkey hk
  · cases outcome with
    | ok content =>
      by_cases htrim : jsTrim (content.getD "") = ""
      · obtain ⟨hsrc, hresp⟩ := fetch_ok_empty hkey htrim
        refine ⟨hresp, by rw [hsrc]; exact Nat.zero_le 5, by rw [hsrc]; exact List.nodup_nil,
          fun h => absurd h hkey, by simp, by simp, fun _ _ _ => hsrc, ?_⟩
        rintro c hc habs -
        injection hc with hc
        subst hc
        exact absurd htrim habs
      · obtain ⟨hresp, hsrc⟩ := fetch_ok_success hkey htrim
        refine ⟨by rw [hresp]; exact htrim,
          by rw [hsrc]; exact extractSources_length_le _,
          by rw [hsrc]; exact extractSources_nodup _,
          fun h => absurd h hkey, by simp, by simp, ?_, ?_⟩
        · rintro c hc habs
          injection hc with hc
          subst hc
          exact absurd habs htrim
        · rintro c hc - -
          injection hc with hc
          subst hc
          refine ⟨hresp, hsrc, fun u hu => ?_⟩
          rw [hsrc] at hu
          exact extractSources_subset hu
    | axiosErr st cd =>
      obtain ⟨hsrc, hresp⟩ := fetch_axios_shape hkey st cd
      exact ⟨hresp, by rw [hsrc]; exact Nat.zero_le 5, by rw [hsrc]; exact List.nodup_nil,
        fun h => absurd h hkey, fun _ _ _ => hsrc, by simp, by simp, by simp⟩
    | otherErr =>
      obtain ⟨hsrc, hresp⟩ := fetch_otherErr_shape hkey
      exact ⟨hresp, by rw [hsrc]; exact Nat.zero_le 5, by rw [hsrc]; exact List.nodup_nil,
        fun h => absurd h hkey, by simp, fun _ => hsrc, by simp, by simp⟩

/-- C10 witness: the theorem applied to a concrete success (a payload
holding one URL twice and one other URL) and to a concrete 429 failure. -/
theorem c10_witness :
    (fetchAiResponseWithSources (some "key")
        (.ok (some "voir http://ex.com et http://ex.com et https://b.fr"))).sources =
      ["http://ex.com", "https://b.fr"] ∧
      (fetchAiResponseWithSources (some "key") (.axiosErr (some 429) none)).sources = [] ∧
      (fetchAiResponseWithSources (some "key") (.axiosErr (some 429) none)).response ≠ "" := by
  refine ⟨?_, ?_, ?_⟩
  · have h := (c10_fetch_total (some "key")
      (.ok (some "voir http://ex.com et http://ex.com et https://b.fr"))).2.2.2.2.2.2.2
      _ rfl (by decide) (by decide)
    rw [h.2.1]
    decide
  · exact (c10_fetch_total (some "key") (.axiosErr (some 429) none)).2.2.2.2.1 _ _ rfl
  · exact (c10_fetch_total (some "key") (.axiosErr (some 429) none)).1

end Prisme.Fetch

namespace Prisme

/-- C7 witness: the theorem applied to a concrete mixed collection: the
scheduled prompt is retained and immediately saved, the executed one-shot
prompt is removed. -/
theorem c7_witness :
    (clearPrompts [c1Prompt, emptyCategoryPrompt]).1 = [c1Prompt] ∧
      (clearPrompts [c1Prompt, emptyCategoryPrompt]).2 = [c1Prompt] := by
  have h := c7_clear_preserves_scheduled [c1Prompt, emptyCategoryPrompt]
  constructor
  · rw [h.2.1]; rfl
  · rw [h.1, h.2.1]; rfl

end Prisme

namespace Prisme.Notif

theorem execTrace_aiStart {t0 t1 : Nat} {ai : String → Except String PerplexityResult}
    {r : Prompt} {i q : String} (h : Event.aiStart i q ∈ execTrace t0 t1 ai r) :
    i = r.id ∧ q = r.question := by
  unfold execTrace at h
  cases hsch : r.scheduled with
  | none => rw [hsch] at h; simp at h
  | some s =>
    rw [hsch] at h
    cases hai : ai r.question with
    | ok v => rw [hai] at h; simpa using h
    | error v => rw [hai] at h; simpa using h

end Prisme.Notif

namespace Prisme

/-- C1 counterexample: at noon UTC of day 1 (timezone 0), the Phase 2
checkAndRunScheduledPrompts due check of src/app/context/PromptContext.tsx
selects the non-recurring prompt c1Prompt again although its lastRun is
already set (on day 0): that due check never consults isRecurring, and the
pass starts a fresh AI query for the prompt.  This falsifies the claim as
stated for that due check. -/
theorem c1_counterexample :
    c1Prompt.scheduled.map Schedule.isRecurring = some (some false) ∧
      c1Prompt.scheduled.map Schedule.lastRun = some (some 0) ∧
      Phase2.isDue 0 129600000 c1Prompt = true ∧
      (Phase2.checkAndRunScheduledPrompts 0 129600000 aiOkSample [c1Prompt]).2 =
        [Event.aiStart "1" "q1"] := by
  refine ⟨rfl, rfl, by decide, by decide⟩

/-- C1 (amended): a Prompt whose schedule has isRecurring = false is never
selected by checkMissedScheduledPrompts, whether or not lastRun is set --
its eligibility is false and it never enters the missed selection -- and
every AI query started by that pass (hence by the notification provider
checkAndRunScheduledPrompts, which delegates to it) belongs to an eligible
prompt of the collection; the Phase 2 checkAndRunScheduledPrompts, by
contrast, ignores isRecurring and selects such a prompt again once its
lastRun is no longer dated today (see the counterexample). -/
theorem c1_nonrecurring_terminal :
    ∀ (tz : Int) (now : Nat) (ai : String → Except String PerplexityResult)
      (ps : List Prompt) (p : Prompt) (s : Schedule),
      p.scheduled = some s → s.isRecurring = some false →
      (Notif.missedEligible tz now p = false ∧
       p ∉ Notif.missedPrompts tz now ps ∧
       ∀ (i q : String),
         Event.aiStart i q ∈ (Notif.checkAndRunScheduledPrompts tz now ai ps).2 →
         ∃ r ∈ ps, Notif.missedEligible tz now r = true ∧ r.id = i ∧ r.question = q) := by
  intro tz now ai ps p s hs hrec
  have helig : Notif.missedEligible tz now p = false := by
    unfold Notif.missedEligible
    rw [hs]
    simp [hrec]
  refine ⟨helig, ?_, ?_⟩
  · intro hmem
    have := (List.mem_filter.mp hmem).2
    rw [helig] at this
    cases this
  · intro i q hev
    unfold Notif.checkAndRunScheduledPrompts at hev
    rw [Notif.checkMissed_eq] at hev
    obtain ⟨r, hrexec, hrev⟩ := List.mem_flatMap.mp hev
    have hrmem := List.mem_filter.mp hrexec
    have hrmiss := List.mem_filter.mp hrmem.1
    obtain ⟨hi, hq⟩ := Notif.execTrace_aiStart hrev
    exact ⟨r, hrmiss.1, hrmiss.2, hi.symm, hq.symm⟩

/-- C1 witness: the amended theorem applied to c1Prompt at noon of day 1:
the missed-execution scan does not select the dormant prompt. -/
theorem c1_witness :
    Notif.missedEligible 0 129600000 c1Prompt = false ∧
      c1Prompt ∉ Notif.missedPrompts 0 129600000 [c1Prompt] := by
  have h := c1_nonrecurring_terminal 0 129600000 aiOkSample [c1Prompt] c1Prompt
    { hour := 0, minute := 0, frequency := "daily", lastRun := some 0,
      isRecurring := some false, notificationId := none } rfl rfl
  exact ⟨h.1, h.2.1⟩

/-- C2 counterexample: the Phase 2 due check executes the due prompt
c2Prompt by starting the AI query with no prior state write at all -- its
trace is the lone AI call start and contains no setRunning event for any
instant -- while the stored lastRun is still absent.  So the AI call is in
flight for a prompt whose lastRun has not been stamped, falsifying the
claim for the execution step of that due-check pass. -/
theorem c2_counterexample :
    (Phase2.checkAndRunScheduledPrompts 0 3600000 aiOkSample [c2Prompt]).2 =
      [Event.aiStart "2" "q2"] ∧
      (Phase2.checkAndRunScheduledPrompts 0 3600000 aiOkSample [c2Prompt]).2.filter
        Event.isAiStart =
        (Phase2.checkAndRunScheduledPrompts 0 3600000 aiOkSample [c2Prompt]).2 ∧
      c2Prompt.scheduled.map Schedule.lastRun = some none := by
  exact ⟨by decide, by decide, rfl⟩

/-- C2 (amended): executeScheduledPrompt of the notification provider
stamps optimistically: its trace begins with the setRunning state write
followed by the AI call start, and the collection produced by that first
write already carries, for every prompt with the executed id, the
in-progress sentinel as response and lastRun equal to the start instant of
the attempt; the Phase 2 due-check pass instead starts the AI call before
any state write (see the counterexample). -/
theorem c2_optimistic_stamp :
    ∀ (t0 t1 : Nat) (ai : String → Except String PerplexityResult)
      (p : Prompt) (st : List Prompt) (s : Schedule),
      p.scheduled = some s →
      ((Notif.executeScheduledPrompt t0 t1 ai p st).2.take 2 =
        [Event.setRunning p.id t0, Event.aiStart p.id p.question] ∧
       ∀ q ∈ st.map (Notif.runUpd t0 p.id), q.id = p.id →
         q.response = inProgressResponse ∧
         ∃ sc : Schedule, q.scheduled = some sc ∧ sc.lastRun = some t0) := by
  intro t0 t1 ai p st s hs
  constructor
  · rw [Notif.exec_eq]
    unfold Notif.execTrace
    rw [hs]
    cases ai p.question <;> rfl
  · intro q hq hid
    obtain ⟨q0, hq0, rfl⟩ := List.mem_map.mp hq
    have hid0 : q0.id = p.id := by rw [Notif.runUpd_id] at hid; exact hid
    unfold Notif.runUpd
    rw [if_pos hid0]
    exact ⟨rfl, _, rfl, rfl⟩

/-- C2 witness: the amended theorem on a concrete one-element collection:
the trace starts with the stamping write, then the AI call start, and the
stamped state carries the sentinel and the start instant. -/
theorem c2_witness :
    (Notif.executeScheduledPrompt 5 9 aiOkSample c2Prompt [c2Prompt]).2.take 2 =
      [Event.setRunning "2" 5, Event.aiStart "2" "q2"] ∧
      (Notif.runUpd 5 c2Prompt.id c2Prompt).response = inProgressResponse ∧
      (Notif.runUpd 5 c2Prompt.id c2Prompt).scheduled.map Schedule.lastRun =
        some (some 5) := by
  have h := c2_optimistic_stamp 5 9 aiOkSample c2Prompt [c2Prompt]
    { hour := 0, minute := 0, frequency := "daily", lastRun := none,
      isRecurring := some true, notificationId := none } rfl
  obtain ⟨hresp, sc, hsc, hlr⟩ :=
    h.2 (Notif.runUpd 5 c2Prompt.id c2Prompt) (by simp) rfl
  refine ⟨h.1, hresp, ?_⟩
  rw [hsc, Option.map_some', hlr]

/-- C4 counterexample: at exactly 14:00:00.000 local time (day 1, timezone
0), the Phase 2 due check considers the 14:00 prompt due, but the
missed-execution scan does not -- it additionally requires the scheduled
moment to lie strictly more than 10 seconds in the past.  So the claim that
the due check makes the prompt due at exactly hour:minute is false for
checkMissedScheduledPrompts. -/
theorem c4_counterexample :
    c4Prompt.scheduled.map Schedule.lastRun = some none ∧
      c4Prompt.scheduled.map Schedule.isRecurring = some (some true) ∧
      jsGetHours 0 136800000 = 14 ∧ jsGetMinutes 0 136800000 = 0 ∧
      Phase2.isDue 0 136800000 c4Prompt = true ∧
      Notif.missedEligible 0 136800000 c4Prompt = false := by
  exact ⟨rfl, rfl, by decide, by decide, by decide, by decide⟩

/-- C4 (amended): for a scheduled prompt not blocked by the dedup guard,
the Phase 2 time gate is exactly comparison of local time of day -- due from
hour:minute on, not before, with no grace; the missed-execution scan of the
notification provider is instead due exactly when the scheduled moment of
today lies strictly more than 10 seconds in the past (so not at hour:minute
sharp), for recurring prompts not already run today and not in progress. -/
theorem c4_time_gate :
    ∀ (tz : Int) (now : Nat) (p : Prompt) (s : Schedule), p.scheduled = some s →
      (((s.lastRun = none ∨ ∃ lr, s.lastRun = some lr ∧ jsUtcDay lr ≠ jsUtcDay now) →
        (Phase2.isDue tz now p = true ↔
          ((s.hour : Int) < jsGetHours tz now ∨
           ((s.hour : Int) = jsGetHours tz now ∧ (s.minute : Int) ≤ jsGetMinutes tz now)))) ∧
       (s.isRecurring.getD true = true →
        jsLocalDay tz (s.lastRun.getD 0) ≠ jsLocalDay tz now →
        jsStartsWith p.response "⏳" = false →
        (Notif.missedEligible tz now p = true ↔
          10000 < (now : Int) - jsSetHoursToday tz now s.hour s.minute))) := by
  intro tz now p s hs
  constructor
  · intro hguard
    unfold Phase2.isDue
    rw [hs]
    dsimp only
    by_cases hcond : jsGetHours tz now < (s.hour : Int) ∨
        (jsGetHours tz now = (s.hour : Int) ∧ jsGetMinutes tz now < (s.minute : Int))
    · rw [if_pos hcond]
      constructor
      · intro habs; simp at habs
      · intro hr; exfalso; omega
    · rw [if_neg hcond]
      rcases hguard with hnone | ⟨lr, hlr, hut⟩
      · rw [hnone]
        exact ⟨fun _ => by omega, fun _ => rfl⟩
      · rw [hlr]
        simp only [hut, decide_eq_true_eq, Bool.not_eq_true']
        constructor
        · intro _; omega
        · intro _; simp [hut]
  · intro hrec hlocal hrun
    unfold Notif.missedEligible
    rw [hs]
    simp only [hrec, hrun, Bool.true_and, Bool.not_false, Bool.and_true, Bool.and_eq_true,
      decide_eq_true_eq, gt_iff_lt]
    constructor
    · intro h; exact h.2
    · intro h; exact ⟨⟨by omega, hlocal⟩, h⟩

/-- C4 witness: the amended theorem at 13:59:00, 14:00:00 and 14:00:15 of
day 1 (timezone 0): the Phase 2 gate flips exactly at 14:00; the missed
scan fires at 14:00:15. -/
theorem c4_witness :
    Phase2.isDue 0 136740000 c4Prompt = false ∧
      Phase2.isDue 0 136800000 c4Prompt = true ∧
      Notif.missedEligible 0 136815000 c4Prompt = true := by
  have sched : Schedule :=
    { hour := 14, minute := 0, frequency := "daily", lastRun := none,
      isRecurring := some true, notificationId := none }
  refine ⟨?_, ?_, ?_⟩
  · have hiff := ((c4_time_gate 0 136740000 c4Prompt
      { hour := 14, minute := 0, frequency := "daily", lastRun := none,
        isRecurring := some true, notificationId := none } rfl).1 (Or.inl rfl))
    exact Bool.eq_false_iff.mpr fun habs => (by decide : ¬((14 : Int) < jsGetHours 0 136740000 ∨
      ((14 : Int) = jsGetHours 0 136740000 ∧ (0 : Int) ≤ jsGetMinutes 0 136740000)))
      (hiff.mp habs)
  · exact ((c4_time_gate 0 136800000 c4Prompt
      { hour := 14, minute := 0, frequency := "daily", lastRun := none,
        isRecurring := some true, notificationId := none } rfl).1 (Or.inl rfl)).mpr (by decide)
  · exact ((c4_time_gate 0 136815000 c4Prompt
      { hour := 14, minute := 0, frequency := "daily", lastRun := none,
        isRecurring := some true, notificationId := none } rfl).2 rfl (by decide) rfl).mpr
      (by decide)

/-- C5 counterexample: in timezone +120, lastRun 75600000 and now 81000000
fall on different local calendar days but on the same UTC day; the Phase 2
due check still skips the prompt -- its guard compares the UTC date prefix
of the ISO strings, not local dates -- even though its time gate passes.
This falsifies the claim that the prompt is skipped exactly when the local
dates coincide. -/
theorem c5_counterexample :
    Phase2.isDue 120 81000000 c5Prompt = false ∧
      jsLocalDay 120 75600000 ≠ jsLocalDay 120 81000000 ∧
      jsUtcDay 75600000 = jsUtcDay 81000000 ∧
      ¬(jsGetHours 120 81000000 < (0 : Int) ∨
        (jsGetHours 120 81000000 = (0 : Int) ∧ jsGetMinutes 120 81000000 < (0 : Int))) := by
  exact ⟨by decide, by decide, by decide, by decide⟩

/-- C5 (amended): the same-day dedup guard of checkMissedScheduledPrompts
compares local calendar dates (toDateString): among otherwise eligible
recurring prompts it skips exactly those whose lastRun (or the epoch when
absent) falls on the local calendar day of now; the Phase 2
checkAndRunScheduledPrompts instead skips exactly when the UTC date
component of lastRun equals the UTC date of now. -/
theorem c5_dedup_guard :
    ∀ (tz : Int) (now : Nat) (p : Prompt) (s : Schedule), p.scheduled = some s →
      ((∀ lr : Nat, s.lastRun = some lr →
        ¬(jsGetHours tz now < (s.hour : Int) ∨
          (jsGetHours tz now = (s.hour : Int) ∧ jsGetMinutes tz now < (s.minute : Int))) →
        (Phase2.isDue tz now p = false ↔ jsUtcDay lr = jsUtcDay now)) ∧
       (s.isRecurring.getD true = true → jsStartsWith p.response "⏳" = false →
        10000 < (now : Int) - jsSetHoursToday tz now s.hour s.minute →
        (Notif.missedEligible tz now p = false ↔
          jsLocalDay tz (s.lastRun.getD 0) = jsLocalDay tz now))) := by
  intro tz now p s hs
  constructor
  · intro lr hlr hcond
    unfold Phase2.isDue
    rw [hs]
    dsimp only
    rw [if_neg hcond, hlr]
    simp
  · intro hrec hrun h10
    have hlt : jsSetHoursToday tz now s.hour s.minute < (now : Int) := by omega
    unfold Notif.missedEligible
    rw [hs]
    dsimp only
    rw [show decide (jsSetHoursToday tz now s.hour s.minute < (now : Int)) = true from
      decide_eq_true hlt]
    rw [show decide ((now : Int) - jsSetHoursToday tz now s.hour s.minute > 10000) = true from
      decide_eq_true h10]
    simp only [hrec, hrun, Bool.true_and, Bool.not_false, Bool.and_true,
      decide_eq_false_iff_not, ne_eq, not_not]

/-- C5 witness: the amended theorem at the concrete midnight-crossing
instants: the Phase 2 guard skips (same UTC day) while the local-date guard
of the missed scan lets the prompt fire (different local days). -/
theorem c5_witness :
    Phase2.isDue 120 81000000 c5Prompt = false ∧
      Notif.missedEligible 120 81000000 c5Prompt = true := by
  constructor
  · exact ((c5_dedup_guard 120 81000000 c5Prompt
      { hour := 0, minute := 0, frequency := "daily", lastRun := some 75600000,
        isRecurring := some true, notificationId := none } rfl).1 75600000 rfl
      (by decide)).mpr (by decide)
  · have hiff := (c5_dedup_guard 120 81000000 c5Prompt
      { hour := 0, minute := 0, frequency := "daily", lastRun := some 75600000,
        isRecurring := some true, notificationId := none } rfl).2 rfl rfl (by decide)
    cases h : Notif.missedEligible 120 81000000 c5Prompt
    · exact absurd (hiff.mp h) (by decide)
    · rfl

end Prisme

namespace Prisme.Notif

theorem execTrace_filter_aiStart (t0 t1 : Nat) (ai : String → Except String PerplexityResult)
    (r : Prompt) :
    (execTrace t0 t1 ai r).filter Event.isAiStart =
      if r.scheduled.isSome then [Event.aiStart r.id r.question] else [] := by
  unfold execTrace
  cases r.scheduled with
  | none => rfl
  | some s =>
    cases ai r.question with
    | ok v => simp [Event.isAiStart]
    | error v => simp [Event.isAiStart]

end Prisme.Notif

namespace Prisme

/-- C6: a failed AI query is recorded as a terminal FAILED outcome for the
prompt and for the period, and it never escapes the per-prompt boundary: in
the Phase 2 pass the catch branch pushes the user-facing error message, the
error sentinel as source, and still stamps lastRun with now; in
executeScheduledPrompt the catch branch writes its error message, the error
sentinel and lastRun; and the set of AI call starts of a whole pass does
not depend on the oracle at all, so a failing prompt never prevents any
other eligible prompt of the same pass from being evaluated and executed. -/
theorem c6_failure_isolated :
    (∀ (now : Nat) (ai : String → Except String PerplexityResult) (p : Prompt) (e : String),
      ai p.question = .error e →
      Phase2.processDuePrompt now ai p =
        { p with response := phase2ErrorResponse, source := "Erreur", updatedAt := now,
                 scheduled := p.scheduled.map (fun s => { s with lastRun := some now }) }) ∧
    (∀ (tz : Int) (now : Nat) (ai1 ai2 : String → Except String PerplexityResult)
      (ps : List Prompt),
      (Phase2.checkAndRunScheduledPrompts tz now ai1 ps).2 =
        (Phase2.checkAndRunScheduledPrompts tz now ai2 ps).2) ∧
    (∀ (t0 t1 : Nat) (ai : String → Except String PerplexityResult) (p : Prompt)
      (st : List Prompt) (s : Schedule) (e : String),
      p.scheduled = some s → ai p.question = .error e →
      ((Notif.executeScheduledPrompt t0 t1 ai p st).2 =
        [Event.setRunning p.id t0, Event.aiStart p.id p.question, Event.setFailed p.id t1] ∧
       ∀ q ∈ (Notif.executeScheduledPrompt t0 t1 ai p st).1, q.id = p.id →
         q.response = schedErrorResponse ∧ q.source = "Erreur" ∧ q.updatedAt = t1 ∧
         ∃ sc : Schedule, q.scheduled = some sc ∧ sc.lastRun = some t1)) ∧
    (∀ (tz : Int) (now : Nat) (ai1 ai2 : String → Except String PerplexityResult)
      (ps : List Prompt),
      (Notif.checkMissedScheduledPrompts tz now ai1 ps).2.filter Event.isAiStart =
        (Notif.checkMissedScheduledPrompts tz now ai2 ps).2.filter Event.isAiStart) := by
  refine ⟨?_, ?_, ?_, ?_⟩
  · intro now ai p e he
    unfold Phase2.processDuePrompt
    rw [he]
  · intro tz now ai1 ai2 ps
    rfl
  · intro t0 t1 ai p st s e hs he
    constructor
    · rw [Notif.exec_eq]
      unfold Notif.execTrace
      rw [hs, he]
    · intro q hq hid
      rw [Notif.exec_eq] at hq
      obtain ⟨q0, hq0, rfl⟩ := List.mem_map.mp hq
      have hid0 : q0.id = p.id := by rw [Notif.stepFun_id] at hid; exact hid
      unfold Notif.stepFun
      rw [hs, he]
      have hrid : (Notif.runUpd t0 p.id q0).id = p.id := by rw [Notif.runUpd_id]; exact hid0
      unfold Notif.failUpd
      rw [if_pos hrid]
      exact ⟨rfl, rfl, rfl, _, rfl, rfl⟩
  · intro tz now ai1 ai2 ps
    rw [Notif.checkMissed_eq, Notif.checkMissed_eq, List.filter_flatMap, List.filter_flatMap]
    simp only [Notif.execTrace_filter_aiStart]

/-- C6 witness: the conjuncts applied at a concrete failing oracle: the
Phase 2 update and the executeScheduledPrompt trace and state for c2Prompt
when every AI call rejects. -/
theorem c6_witness :
    Phase2.processDuePrompt 7 aiBadSample c2Prompt =
      { c2Prompt with response := phase2ErrorResponse, source := "Erreur", updatedAt := 7,
                      scheduled := c2Prompt.scheduled.map (fun s => { s with lastRun := some 7 }) } ∧
      (Notif.executeScheduledPrompt 5 7 aiBadSample c2Prompt [c2Prompt]).2 =
        [Event.setRunning "2" 5, Event.aiStart "2" "q2", Event.setFailed "2" 7] := by
  constructor
  · exact c6_failure_isolated.1 7 aiBadSample c2Prompt "network" rfl
  · exact (c6_failure_isolated.2.2.1 5 7 aiBadSample c2Prompt [c2Prompt]
      { hour := 0, minute := 0, frequency := "daily", lastRun := none,
        isRecurring := some true, notificationId := none } "network" rfl rfl).1

/-- C3: for a fixed current time, running a due-check / recovery pass twice
in sequence invokes the AI query at most once per prompt: the Phase 2 pass
starts exactly one AI call per due prompt, and the second run of either
pass, applied to the collection produced by the first, selects nothing and
records no event at all -- every produced prompt fails the eligibility test
(its lastRun freshly stamped today, or unchanged and still ineligible).
Prompt ids are assumed pairwise distinct, as the data model prescribes. -/
theorem c3_idempotent_pass :
    ∀ (tz : Int) (now : Nat) (ai : String → Except String PerplexityResult)
      (ps : List Prompt), (ps.map Prompt.id).Nodup →
      ((Phase2.checkAndRunScheduledPrompts tz now ai ps).2 =
        (Phase2.duePrompts tz now ps).map (fun p => Event.aiStart p.id p.question) ∧
       (Phase2.checkAndRunScheduledPrompts tz now ai
         ((Phase2.checkAndRunScheduledPrompts tz now ai ps).1)).2 = [] ∧
       (Notif.checkMissedScheduledPrompts tz now ai
         ((Notif.checkMissedScheduledPrompts tz now ai ps).1)).2 = []) := by
  intro tz now ai ps hnd
  exact ⟨rfl, Phase2.phase2_second_pass, Notif.missed_second_pass hnd⟩

/-- C3 witness: the theorem on a concrete one-element collection whose
prompt fires in the first pass: both second passes are silent. -/
theorem c3_witness :
    (Phase2.checkAndRunScheduledPrompts 0 136815000 aiOkSample
      ((Phase2.checkAndRunScheduledPrompts 0 136815000 aiOkSample [c4Prompt]).1)).2 = [] ∧
      (Notif.checkMissedScheduledPrompts 0 136815000 aiOkSample
        ((Notif.checkMissedScheduledPrompts 0 136815000 aiOkSample [c4Prompt]).1)).2 = [] := by
  have h := c3_idempotent_pass 0 136815000 aiOkSample [c4Prompt] (by decide)
  exact ⟨h.2.1, h.2.2⟩

end Prisme

namespace Prisme.Phase2

theorem processDuePrompt_question (now : Nat) (ai : String → Except String PerplexityResult)
    (p : Prompt) : (processDuePrompt now ai p).question = p.question := by
  unfold processDuePrompt
  cases ai p.question <;> rfl

theorem processDuePrompt_category (now : Nat) (ai : String → Except String PerplexityResult)
    (p : Prompt) : (processDuePrompt now ai p).category = p.category := by
  unfold processDuePrompt
  cases ai p.question <;> rfl

theorem processDuePrompt_schedCore (now : Nat) (ai : String → Except String PerplexityResult)
    (p : Prompt) :
    (processDuePrompt now ai p).scheduled.map schedCore = p.scheduled.map schedCore := by
  unfold processDuePrompt
  cases ai p.question <;> (cases p.scheduled <;> rfl)

theorem duePrompts_nodup {tz : Int} {now : Nat} {ps : List Prompt}
    (hnd : (ps.map Prompt.id).Nodup) : ((duePrompts tz now ps).map Prompt.id).Nodup :=
  List.Nodup.sublist ((List.filter_sublist ps).map Prompt.id) hnd

theorem phase2_find_due {tz : Int} {now : Nat} {ai : String → Except String PerplexityResult}
    {ps : List Prompt} (hnd : (ps.map Prompt.id).Nodup) {p : Prompt} (hp : p ∈ ps)
    (hdue : isDue tz now p = true) :
    (promptsToUpdate tz now ai ps).find? (fun u => u.id == p.id) =
      some (processDuePrompt now ai p) := by
  unfold promptsToUpdate
  rw [List.find?_map]
  have hcong : ((fun u : Prompt => u.id == p.id) ∘ (processDuePrompt now ai)) =
      fun r : Prompt => r.id == p.id := by
    funext r
    simp [Function.comp, processDuePrompt_id]
  rw [hcong, Notif.find_self (duePrompts_nodup hnd) (List.mem_filter.mpr ⟨hp, hdue⟩)]
  rfl

theorem phase2_find_notdue {tz : Int} {now : Nat} {ai : String → Except String PerplexityResult}
    {ps : List Prompt} (hnd : (ps.map Prompt.id).Nodup) {p : Prompt} (hp : p ∈ ps)
    (hdue : isDue tz now p = false) :
    (promptsToUpdate tz now ai ps).find? (fun u => u.id == p.id) = none := by
  refine List.find?_eq_none.mpr fun u hu => ?_
  obtain ⟨r, hr, rfl⟩ := List.mem_map.mp hu
  simp only [processDuePrompt_id, beq_iff_eq]
  intro hid
  have hrps : r ∈ ps := (List.mem_filter.mp hr).1
  have hrdue := (List.mem_filter.mp hr).2
  have : r = p := List.inj_on_of_nodup_map hnd hrps hp hid
  subst this
  rw [hdue] at hrdue
  cases hrdue

theorem phase2_frame {tz : Int} {now : Nat} {ai : String → Except String PerplexityResult}
    {ps : List Prompt} (hnd : (ps.map Prompt.id).Nodup) :
    (checkAndRunScheduledPrompts tz now ai ps).1.length = ps.length ∧
    ∀ (i : Nat) (p : Prompt), ps[i]? = some p →
      ∃ q, (checkAndRunScheduledPrompts tz now ai ps).1[i]? = some q ∧
        q.id = p.id ∧ q.question = p.question ∧ q.category = p.category ∧
        q.scheduled.map schedCore = p.scheduled.map schedCore ∧
        (isDue tz now p = false → q = p) ∧
        (isDue tz now p = true → ∃ resp src,
          q = { p with response := resp, source := src, updatedAt := now,
                       scheduled := p.scheduled.map (fun s => { s with lastRun := some now }) }) := by
  by_cases hemp : (promptsToUpdate tz now ai ps).isEmpty
  · have hout : (checkAndRunScheduledPrompts tz now ai ps).1 = ps := by
      unfold checkAndRunScheduledPrompts
      rw [if_pos hemp]
    rw [hout]
    refine ⟨rfl, fun i p hip => ⟨p, hip, rfl, rfl, rfl, rfl, fun _ => rfl, fun hdue => ?_⟩⟩
    exfalso
    have hdp : duePrompts tz now ps = [] := by
      have h1 : promptsToUpdate tz now ai ps = [] := List.isEmpty_iff.mp hemp
      unfold promptsToUpdate at h1
      exact List.map_eq_nil_iff.mp h1
    exact List.filter_eq_nil_iff.mp hdp p (List.getElem?_mem hip) hdue
  · have hout : (checkAndRunScheduledPrompts tz now ai ps).1 =
        mergeUpdates (promptsToUpdate tz now ai ps) ps := by
      unfold checkAndRunScheduledPrompts
      rw [if_neg hemp]
    rw [hout]
    unfold mergeUpdates
    refine ⟨List.length_map _ _, fun i p hip => ?_⟩
    rw [List.getElem?_map, hip, Option.map_some']
    have hps : p ∈ ps := List.getElem?_mem hip
    by_cases hdue : isDue tz now p = true
    · rw [phase2_find_due hnd hps hdue]
      refine ⟨processDuePrompt now ai p, rfl, processDuePrompt_id now ai p,
        processDuePrompt_question now ai p, processDuePrompt_category now ai p,
        processDuePrompt_schedCore now ai p, ?_, ?_⟩
      · intro hfalse; rw [hdue] at hfalse; cases hfalse
      · intro _
        cases hai : ai p.question with
        | ok r =>
          exact ⟨r.response, r.sourcesFormatted, by unfold processDuePrompt; rw [hai]⟩
        | error e =>
          exact ⟨phase2ErrorResponse, "Erreur", by unfold processDuePrompt; rw [hai]⟩
    · have hfd : isDue tz now p = false := by
        cases h : isDue tz now p
        · rfl
        · exact absurd h hdue
      rw [phase2_find_notdue hnd hps hfd]
      exact ⟨p, rfl, rfl, rfl, rfl, rfl, fun _ => rfl, fun h => absurd h hdue⟩

end Prisme.Phase2

namespace Prisme.Notif

theorem exec_frame {t0 t1 : Nat} {ai : String → Except String PerplexityResult}
    {p : Prompt} {st : List Prompt} {s : Schedule}
    (hnd : (st.map Prompt.id).Nodup) (hp : p ∈ st) (hs : p.scheduled = some s) :
    (executeScheduledPrompt t0 t1 ai p st).1.length = st.length ∧
    ∀ (i : Nat) (q : Prompt), st[i]? = some q →
      ∃ q', (executeScheduledPrompt t0 t1 ai p st).1[i]? = some q' ∧
        (q ≠ p → q' = q) ∧
        (q = p → ∃ resp src,
          q' = { p with response := resp, source := src, updatedAt := t1,
                        scheduled := some { s with lastRun := some t1 } }) := by
  rw [exec_eq]
  refine ⟨List.length_map _ _, fun i q hiq => ?_⟩
  rw [List.getElem?_map, hiq, Option.map_some']
  refine ⟨stepFun t0 t1 ai p q, rfl, ?_, ?_⟩
  · intro hne
    have hqs : q ∈ st := List.getElem?_mem hiq
    have hid : q.id ≠ p.id := by
      intro h
      exact hne (List.inj_on_of_nodup_map hnd hqs hp h)
    exact stepFun_of_ne t0 t1 ai hid
  · rintro rfl
    unfold stepFun
    rw [hs]
    cases hai : ai q.question with
    | ok r =>
      refine ⟨r.response, r.sourcesFormatted, ?_⟩
      simp [doneUpd, runUpd, hs]
    | error e =>
      refine ⟨schedErrorResponse, "Erreur", ?_⟩
      simp [failUpd, runUpd, hs]

end Prisme.Notif

namespace Prisme

/-- C9: with pairwise-distinct prompt ids (as the data model prescribes), a
Phase 2 due-check pass neither adds nor removes prompts and leaves id,
question, category and the schedule core (hour, minute, frequency,
isRecurring) of every prompt intact; prompts not selected as due -- in
particular every prompt without a schedule -- are left entirely unchanged,
and a selected prompt changes only response, source, updatedAt and
scheduled.lastRun.  The same frame holds for one executeScheduledPrompt
call of the notification provider: length preserved, every other prompt
untouched, and the executed prompt changed only in response, source,
updatedAt and scheduled.lastRun. -/
theorem c9_pass_frame :
    ∀ (tz : Int) (now : Nat) (ai : String → Except String PerplexityResult)
      (ps : List Prompt), (ps.map Prompt.id).Nodup →
      (((Phase2.checkAndRunScheduledPrompts tz now ai ps).1.length = ps.length ∧
        ∀ (i : Nat) (p : Prompt), ps[i]? = some p →
          ∃ q, (Phase2.checkAndRunScheduledPrompts tz now ai ps).1[i]? = some q ∧
            q.id = p.id ∧ q.question = p.question ∧ q.category = p.category ∧
            q.scheduled.map schedCore = p.scheduled.map schedCore ∧
            (Phase2.isDue tz now p = false → q = p) ∧
            (Phase2.isDue tz now p = true → ∃ resp src,
              q = { p with response := resp, source := src, updatedAt := now,
                           scheduled := p.scheduled.map
                             (fun s => { s with lastRun := some now }) })) ∧
       (∀ (t0 t1 : Nat) (p : Prompt) (st : List Prompt) (s : Schedule),
         (st.map Prompt.id).Nodup → p ∈ st → p.scheduled = some s →
         ((Notif.executeScheduledPrompt t0 t1 ai p st).1.length = st.length ∧
          ∀ (i : Nat) (q : Prompt), st[i]? = some q →
            ∃ q', (Notif.executeScheduledPrompt t0 t1 ai p st).1[i]? = some q' ∧
              (q ≠ p → q' = q) ∧
              (q = p → ∃ resp src,
                q' = { p with response := resp, source := src, updatedAt := t1,
                              scheduled := some { s with lastRun := some t1 } })))) := by
  intro tz now ai ps hnd
  exact ⟨Phase2.phase2_frame hnd, fun t0 t1 p st s h1 h2 h3 => Notif.exec_frame h1 h2 h3⟩

/-- C9 witness: the frame applied to concrete one-element collections, for
the Phase 2 pass and for one executeScheduledPrompt call. -/
theorem c9_witness :
    (Phase2.checkAndRunScheduledPrompts 0 129600000 aiOkSample [c1Prompt]).1.length = 1 ∧
      (Notif.executeScheduledPrompt 5 9 aiOkSample c2Prompt [c2Prompt]).1.length = 1 := by
  have h := c9_pass_frame 0 129600000 aiOkSample [c1Prompt] (by decide)
  refine ⟨h.1.1, ?_⟩
  exact (h.2 5 9 c2Prompt [c2Prompt]
    { hour := 0, minute := 0, frequency := "daily", lastRun := none,
      isRecurring := some true, notificationId := none }
    (by decide) (by simp) rfl).1

end Prisme
